import Mathlib

/-!
Verification of the raycasting engine's core logic.

Shallow embedding of the renderer's pure logic:
- door material classification (`isHorizontalDoor`, `isVerticalDoor`, `isDoor`);
- the multi-level grid and `cellAt`;
- the movement collision test `isWall` and the per-frame movement step;
- the unified DDA traversal setup and stepping;
- the per-cell front-face hit emission of the unified DDA;
- the hit comparator and the column sort;
- the wall projection (`stripScreenHeight`, wall span endpoints);
- the deferred door-pass clipping loop (`clipDoor`).

Real-number quantities (world coordinates, distances) are embedded as
rationals; the DDA's "Infinity" step sentinel is embedded as the top
element of `WithTop Rat`.  Ray directions are taken as direction-vector
inputs (the code computes them as cosine/sine of the ray angle and then
uses only the vector).
-/

/-- Source `Raycaster.isHorizontalDoor`: `wallType > 1500`. -/
def isHorizontalDoor (wallType : Int) : Bool :=
  wallType > 1500

/-- Source `Raycaster.isVerticalDoor`: `wallType > 1000 && wallType <= 1500`. -/
def isVerticalDoor (wallType : Int) : Bool :=
  wallType > 1000 && wallType ≤ 1500

/-- Source `Raycaster.isDoor`: vertical or horizontal door. -/
def isDoor (wallType : Int) : Bool :=
  isVerticalDoor wallType || isHorizontalDoor wallType

/-- The grid state of a `Raycaster`: dimensions plus one flat
`gridWidth * gridHeight` array of cell codes per vertical level
(`createGrids` fills each level with zeros and the game overwrites
them with the flattened maps). -/
structure RaycasterGrid where
  gridWidth : Int
  gridHeight : Int
  grids : List (List Int)

/-- Source `Raycaster.cellAt(x, y, z)`:
returns 0 when the level is out of range, computes the flat offset
`x + y * gridWidth`, returns 0 when that offset is outside
`[0, gridWidth * gridHeight)`, and otherwise indexes the level's flat
array at the offset. -/
def cellAt (r : RaycasterGrid) (x y z : Int) : Int :=
  if z < 0 ∨ (r.grids.length : Int) ≤ z then 0
  else if x + y * r.gridWidth < 0 ∨ r.gridWidth * r.gridHeight ≤ x + y * r.gridWidth then 0
  else (r.grids.getD z.toNat []).getD (x + y * r.gridWidth).toNat 0

/-- Source `Game.isWall(x, y)`: world coordinates are floored to cell
coordinates; off-map is solid (`true`); a door cell is solid exactly
when the door state at its key is not open; otherwise solid means a
positive cell code.  `doors` models the JS door-state object: absent
keys read as falsy. -/
def isWall (r : RaycasterGrid) (doors : Int → Bool) (tileSize : ℚ)
    (x y : ℚ) : Bool :=
  let cx := ⌊x / tileSize⌋
  let cy := ⌊y / tileSize⌋
  if cx < 0 ∨ r.gridWidth ≤ cx ∨ cy < 0 ∨ r.gridHeight ≤ cy then true
  else
    let wall := cellAt r cx cy 0
    if isDoor wall then !(doors (cx + cy * r.gridWidth))
    else wall > 0

/-- Source `Game.update` movement step: the x displacement is applied
only if the tentative `(newX, y)` is not in a wall, then the y
displacement only if `(x1, newY)` is not in a wall, where `x1` is the
already-updated x coordinate. -/
def movePlayer (r : RaycasterGrid) (doors : Int → Bool) (tileSize : ℚ)
    (x y dx dy : ℚ) : ℚ × ℚ :=
  let newX := x + dx
  let newY := y + dy
  let x1 := if isWall r doors tileSize newX y = false then newX else x
  let y1 := if isWall r doors tileSize x1 newY = false then newY else y
  (x1, y1)

/-- Source `Raycaster.raycastStatic`, vertical-boundary scan wall check
(also the vertical intersection loop of `Game.draw`):
`grid[wallOffset] > 0 && !Raycaster.isHorizontalDoor(grid[wallOffset])`. -/
def vertScanSolid (c : Int) : Bool :=
  c > 0 && !(isHorizontalDoor c)

/-- Source `Raycaster.raycastStatic`, horizontal-boundary scan wall check
(also the horizontal intersection loop of `Game.draw`):
`grid[wallOffset] > 0 && !Raycaster.isVerticalDoor(grid[wallOffset])`. -/
def horizScanSolid (c : Int) : Bool :=
  c > 0 && !(isVerticalDoor c)

/-- Per-cell, per-level front-face test of the unified DDA in
`Game.draw`: `isOpenDoor = isDoor(wall) && doors[cellKey]`,
`isSolid = wall > 0 && !isOpenDoor`, and a front-face hit is emitted
exactly when `isSolid && prevWalls[level] === 0`. -/
def frontFaceHit (wall : Int) (doorOpen : Bool) (prevWall : Int) : Bool :=
  let isOpenDoor := isDoor wall && doorOpen
  let isSolid := wall > 0 && !isOpenDoor
  isSolid && prevWall == 0

/-- The `prevWalls[level]` update of the unified DDA in `Game.draw`:
`(isSolid && !Raycaster.isDoor(wall)) ? wall : 0` — doors never persist,
so geometry behind them keeps being detected. -/
def nextPrevWall (wall : Int) (doorOpen : Bool) : Int :=
  let isOpenDoor := isDoor wall && doorOpen
  let isSolid := wall > 0 && !isOpenDoor
  if isSolid && !(isDoor wall) then wall else 0

/-- One hit record of the unified DDA in `Game.draw`:
`{ dist, horiz, type, texX, level }`. -/
structure DDAHit where
  dist : ℚ
  horiz : Bool
  wallType : Int
  texX : ℚ
  level : Int
deriving DecidableEq

/-- The comparator of `Game.draw`'s `hits.sort`, as the non-strict
"may precede" relation: the comparator returns `b.dist - a.dist` when
distances differ and `b.level - a.level` otherwise, so `a` may precede
`b` exactly when the comparator value is not positive. -/
def hitBefore (a b : DDAHit) : Prop :=
  if a.dist = b.dist then b.level ≤ a.level else b.dist < a.dist

instance : DecidableRel hitBefore := fun a b => by
  unfold hitBefore; infer_instance

instance : IsTotal DDAHit hitBefore := by
  constructor
  intro a b
  unfold hitBefore
  by_cases hd : a.dist = b.dist
  · rw [if_pos hd, if_pos hd.symm]
    exact le_total b.level a.level
  · rcases lt_or_gt_of_ne hd with hlt | hgt
    · right
      rw [if_neg (Ne.symm hd)]
      exact hlt
    · left
      rw [if_neg hd]
      exact hgt

instance : IsTrans DDAHit hitBefore := by
  constructor
  intro a b c hab hbc
  unfold hitBefore at hab hbc ⊢
  by_cases h1 : a.dist = b.dist
  · rw [if_pos h1] at hab
    by_cases h2 : b.dist = c.dist
    · rw [if_pos h2] at hbc
      rw [if_pos (h1.trans h2)]
      exact le_trans hbc hab
    · rw [if_neg h2] at hbc
      have hlt : c.dist < a.dist := by rw [h1]; exact hbc
      rw [if_neg (ne_of_gt hlt)]
      exact hlt
  · rw [if_neg h1] at hab
    by_cases h2 : b.dist = c.dist
    · rw [if_pos h2] at hbc
      have hlt : c.dist < a.dist := by rw [← h2]; exact hab
      rw [if_neg (ne_of_gt hlt)]
      exact hlt
    · rw [if_neg h2] at hbc
      have hlt : c.dist < a.dist := lt_trans hbc hab
      rw [if_neg (ne_of_gt hlt)]
      exact hlt

/-- `hits.sort(comparator)` of `Game.draw`, modelled as a comparison
sort with respect to the comparator's "may precede" relation. -/
def sortHits (l : List DDAHit) : List DDAHit :=
  List.insertionSort hitBefore l

/-- A concrete small 3x3 single-level grid used as a witness world:

  `0 0 7`
  `0 0 0`
  `0 0 0`

-/
def gridEx : RaycasterGrid :=
  ⟨3, 3, [[0, 0, 7, 0, 0, 0, 0, 0, 0]]⟩

/-- A concrete 5x5 single-level grid with a vertical-door cell (code
1200) at cell coordinates (3, 2) and solid walls (code 1) on the
border. -/
def gridDoorEx : RaycasterGrid :=
  ⟨5, 5,
   [[1, 1, 1, 1, 1,
     1, 0, 0, 0, 1,
     1, 0, 0, 1200, 1,
     1, 0, 0, 0, 1,
     1, 1, 1, 1, 1]]⟩

/-- A state of the unified DDA of `Game.draw`: the current cell
`(cx, cy)` and the parametric distances `tMaxX`, `tMaxY` to the next
vertical / horizontal grid boundary (`Infinity` is the top element). -/
structure DDAState where
  cx : Int
  cy : Int
  tMaxX : WithTop ℚ
  tMaxY : WithTop ℚ
deriving DecidableEq

/-- The per-ray constants of the unified DDA of `Game.draw`: the cell
step directions and the parametric distances `tDeltaX`, `tDeltaY`
needed to cross one full cell on each axis. -/
structure DDARay where
  stepX : Int
  stepY : Int
  tDeltaX : WithTop ℚ
  tDeltaY : WithTop ℚ
deriving DecidableEq

/-- The ray-constant setup of `Game.draw`:
`stepX = dirX >= 0 ? 1 : -1` (same for y) and
`tDeltaX = dirX !== 0 ? Math.abs(TILE_SIZE / dirX) : Infinity` (same
for y).  The direction vector `(dirX, dirY)` is the input; the code
computes it as `(cos rayAngle, -sin rayAngle)`. -/
def mkDDARay (tileSize dirX dirY : ℚ) : DDARay where
  stepX := if 0 ≤ dirX then 1 else -1
  stepY := if 0 ≤ dirY then 1 else -1
  tDeltaX := if dirX ≠ 0 then ((|tileSize / dirX| : ℚ) : WithTop ℚ) else ⊤
  tDeltaY := if dirY ≠ 0 then ((|tileSize / dirY| : ℚ) : WithTop ℚ) else ⊤

/-- The initial DDA state of `Game.draw`: the player's cell, and the
distance along the ray to the first vertical / horizontal boundary
(`tMaxX`, `tMaxY`), with the `Infinity` sentinel when the matching
direction component is zero. -/
def mkDDAState (tileSize px py dirX dirY : ℚ) : DDAState where
  cx := ⌊px / tileSize⌋
  cy := ⌊py / tileSize⌋
  tMaxX :=
    if 0 < dirX then (((((⌊px / tileSize⌋ : Int) + 1) * tileSize - px) / dirX : ℚ) : WithTop ℚ)
    else if dirX < 0 then ((((⌊px / tileSize⌋ : Int) * tileSize - px) / dirX : ℚ) : WithTop ℚ)
    else ⊤
  tMaxY :=
    if 0 < dirY then (((((⌊py / tileSize⌋ : Int) + 1) * tileSize - py) / dirY : ℚ) : WithTop ℚ)
    else if dirY < 0 then ((((⌊py / tileSize⌋ : Int) * tileSize - py) / dirY : ℚ) : WithTop ℚ)
    else ⊤

/-- One iteration of the DDA stepping loop in `Game.draw`: cross the
nearer boundary (`crossVertical = tMaxX < tMaxY`), step one cell on
that axis and advance that axis's `tMax` by its `tDelta`. -/
def ddaStep (ray : DDARay) (s : DDAState) : DDAState :=
  if s.tMaxX < s.tMaxY then
    { s with cx := s.cx + ray.stepX, tMaxX := s.tMaxX + ray.tDeltaX }
  else
    { s with cy := s.cy + ray.stepY, tMaxY := s.tMaxY + ray.tDeltaY }

/-- `crossDist = crossVertical ? tMaxX : tMaxY` of `Game.draw`: the
boundary-crossing distance at which the next cell is entered. -/
def crossDist (s : DDAState) : WithTop ℚ :=
  min s.tMaxX s.tMaxY

/-- One wall segment recorded in `wallSegments[strip]` by the opaque
pass of `Game.draw`: its corrected distance and drawn screen rows. -/
structure WallSeg where
  dist : ℚ
  yStart : Int
  yEnd : Int
deriving DecidableEq

/-- The door-clipping loop of `Game.draw`'s PASS 2: fold the door span
`[yStart, yEnd)` over the recorded wall segments; a closer overlapping
segment either covers the whole span (empty result, loop break),
covers the top (raise `yStart`), covers the bottom (lower `yEnd`), or
lies strictly inside (no change). -/
def clipDoor (doorDist : ℚ) (yStart yEnd : Int) : List WallSeg → Int × Int
  | [] => (yStart, yEnd)
  | seg :: rest =>
    if seg.dist < doorDist then
      if seg.yStart < yEnd ∧ yStart < seg.yEnd then
        if seg.yStart ≤ yStart ∧ yEnd ≤ seg.yEnd then (yEnd, yEnd)
        else if seg.yStart ≤ yStart then clipDoor doorDist (max yStart seg.yEnd) yEnd rest
        else if yEnd ≤ seg.yEnd then clipDoor doorDist yStart (min yEnd seg.yStart) rest
        else clipDoor doorDist yStart yEnd rest
      else clipDoor doorDist yStart yEnd rest
    else clipDoor doorDist yStart yEnd rest

/-- Source `Raycaster.stripScreenHeight`:
`Math.floor(screenDistance / correctDistance * tileSize + 0.5)`. -/
def stripScreenHeight (screenDistance correctDistance tileSize : ℚ) : Int :=
  ⌊screenDistance / correctDistance * tileSize + 1 / 2⌋

/-- `wallTop` of `Game.draw`:
`horizon + (cameraZ - (level+1)*TILE_SIZE) * (viewDist / correctDist)`. -/
def wallTopY (horizon cameraZ tileSize viewDist correctDist : ℚ) (level : Int) : ℚ :=
  horizon + (cameraZ - (level + 1) * tileSize) * (viewDist / correctDist)

/-- `wallBottom` of `Game.draw`:
`horizon + (cameraZ - level*TILE_SIZE) * (viewDist / correctDist)`. -/
def wallBottomY (horizon cameraZ tileSize viewDist correctDist : ℚ) (level : Int) : ℚ :=
  horizon + (cameraZ - level * tileSize) * (viewDist / correctDist)

/-- In `WithTop ℚ`, adding a positive amount to a non-top element
strictly increases it. -/
theorem withTop_lt_add_right (a d : WithTop ℚ) (ha : a ≠ ⊤) (hd : 0 < d) :
    a < a + d := by
  lift a to ℚ using ha
  induction d using WithTop.recTopCoe with
  | top =>
    rw [WithTop.add_top]
    exact WithTop.coe_lt_top a
  | coe q =>
    rw [← WithTop.coe_add, WithTop.coe_lt_coe]
    have : (0:ℚ) < q := by exact_mod_cast hd
    linarith

/-- For a positive tile size, the x step distance of the DDA setup is
positive (the `Infinity` sentinel included). -/
theorem tDeltaX_pos (tileSize dirX dirY : ℚ) (hT : 0 < tileSize) :
    0 < (mkDDARay tileSize dirX dirY).tDeltaX := by
  unfold mkDDARay
  simp only
  by_cases h : dirX ≠ 0
  · rw [if_pos h]
    rw [show ((0:WithTop ℚ)) = ((0:ℚ):WithTop ℚ) from rfl, WithTop.coe_lt_coe]
    exact abs_pos.mpr (div_ne_zero (ne_of_gt hT) h)
  · rw [if_neg h]
    exact WithTop.coe_lt_top 0

/-- For a positive tile size, the y step distance of the DDA setup is
positive (the `Infinity` sentinel included). -/
theorem tDeltaY_pos (tileSize dirX dirY : ℚ) (hT : 0 < tileSize) :
    0 < (mkDDARay tileSize dirX dirY).tDeltaY := by
  unfold mkDDARay
  simp only
  by_cases h : dirY ≠ 0
  · rw [if_pos h]
    rw [show ((0:WithTop ℚ)) = ((0:ℚ):WithTop ℚ) from rfl, WithTop.coe_lt_coe]
    exact abs_pos.mpr (div_ne_zero (ne_of_gt hT) h)
  · rw [if_neg h]
    exact WithTop.coe_lt_top 0

/-- When the horizontal boundary is not strictly farther, the DDA steps
on the y axis. -/
theorem ddaStep_of_not_lt (ray : DDARay) (s : DDAState) (h : ¬ s.tMaxX < s.tMaxY) :
    ddaStep ray s = { s with cy := s.cy + ray.stepY, tMaxY := s.tMaxY + ray.tDeltaY } := by
  unfold ddaStep
  rw [if_neg h]

/-- When the vertical boundary is strictly nearer, the DDA steps on the
x axis. -/
theorem ddaStep_of_lt (ray : DDARay) (s : DDAState) (h : s.tMaxX < s.tMaxY) :
    ddaStep ray s = { s with cx := s.cx + ray.stepX, tMaxX := s.tMaxX + ray.tDeltaX } := by
  unfold ddaStep
  rw [if_pos h]

/-- Claim C8 (counterexample): the claim states a cell code is a
vertical-axis door exactly when it lies in 1000..1500 inclusive of
1000; the code tests `wallType > 1000`, so 1000 is not classified as a
vertical door (it is treated as plain solid wall material). -/
theorem C8_isVerticalDoor_1000 :
    isVerticalDoor 1000 = false ∧ (1000:Int) ≤ 1000 ∧ (1000:Int) ≤ 1500 := by
  decide

/-- Claim C8 (amended): a cell code is a vertical-axis door exactly when
`1000 < c ≤ 1500`, a horizontal-axis door exactly when `c > 1500`, and
plain (non-door) solid wall material exactly when `1 ≤ c ≤ 1000` —
the code 1000 itself falls in the solid-wall class, not the
vertical-door class. -/
theorem C8_door_classification (c : Int) :
    (isVerticalDoor c = true ↔ 1000 < c ∧ c ≤ 1500) ∧
    (isHorizontalDoor c = true ↔ 1500 < c) ∧
    (0 < c ∧ isDoor c = false ↔ 1 ≤ c ∧ c ≤ 1000) := by
  simp only [isVerticalDoor, isHorizontalDoor, isDoor, Bool.and_eq_true,
    Bool.or_eq_false_iff, decide_eq_true_eq, Bool.or_eq_true,
    Bool.and_eq_false_iff, decide_eq_false_iff_not, not_lt, not_le,
    gt_iff_lt]
  refine ⟨trivial, trivial, ?_⟩
  omega

/-- Claim C5: a door material qualifies as a stopping solid only for the
boundary scan matching its orientation: a vertical door is solid for
the vertical-boundary scan and passes through (non-solid) in the
horizontal-boundary scan, and a horizontal door is solid for the
horizontal-boundary scan and passes through in the vertical-boundary
scan. -/
theorem C5_door_orientation_scan (c : Int) :
    (isVerticalDoor c = true →
      vertScanSolid c = true ∧ horizScanSolid c = false) ∧
    (isHorizontalDoor c = true →
      horizScanSolid c = true ∧ vertScanSolid c = false) := by
  simp [vertScanSolid, horizScanSolid, isVerticalDoor, isHorizontalDoor]
  omega

/-- Witness for C5 at the concrete door codes 1200 (vertical) and 1600
(horizontal). -/
theorem C5_door_orientation_scan_witness :
    (vertScanSolid 1200 = true ∧ horizScanSolid 1200 = false) ∧
    (horizScanSolid 1600 = true ∧ vertScanSolid 1600 = false) :=
  ⟨(C5_door_orientation_scan 1200).1 (by decide),
   (C5_door_orientation_scan 1600).2 (by decide)⟩

/-- Claim C6 (counterexample): the claim states `cellAt` returns 0 for
every coordinate pair outside the grid rectangle; but the code checks
only the flattened offset, so `x = -1` (outside the rectangle) with
`y = 1` on a 3x3 grid gives offset `-1 + 1*3 = 2`, which is in flat
range, and `cellAt` returns the code of cell (2, 0) — another cell's
code, not 0. -/
theorem C6_negative_x_aliases :
    (-1 : Int) < 0 ∧ cellAt gridEx (-1) 1 0 = 7 ∧ (7 : Int) ≠ 0 := by
  decide

/-- Claim C6 (amended): `cellAt` returns 0 when the level is out of
range, or when the flattened offset `x + y * gridWidth` is outside
`[0, gridWidth * gridHeight)`; in particular, for an in-range x it
returns 0 for every out-of-range y.  For an out-of-range x whose
flattened offset lands back in range, it can instead return another
cell's code (see the counterexample). -/
theorem C6_cellAt_out_of_bounds (r : RaycasterGrid) (x y z : Int) :
    ((z < 0 ∨ (r.grids.length : Int) ≤ z) → cellAt r x y z = 0) ∧
    ((x + y * r.gridWidth < 0 ∨ r.gridWidth * r.gridHeight ≤ x + y * r.gridWidth) →
      cellAt r x y z = 0) ∧
    ((0 ≤ x ∧ x < r.gridWidth ∧ (y < 0 ∨ r.gridHeight ≤ y)) →
      cellAt r x y z = 0) := by
  refine ⟨?_, ?_, ?_⟩
  · intro h
    unfold cellAt
    rw [if_pos h]
  · intro h
    unfold cellAt
    by_cases hz : z < 0 ∨ (r.grids.length : Int) ≤ z
    · rw [if_pos hz]
    · rw [if_neg hz, if_pos h]
  · rintro ⟨hx0, hxw, hy⟩
    unfold cellAt
    by_cases hz : z < 0 ∨ (r.grids.length : Int) ≤ z
    · rw [if_pos hz]
    · rw [if_neg hz, if_pos ?_]
      rcases hy with hy | hy
      · left
        nlinarith
      · right
        nlinarith

/-- Witness for C6 at concrete out-of-range inputs on the witness
grid: an out-of-range level, an out-of-range flat offset, and an
in-range x with out-of-range y. -/
theorem C6_cellAt_out_of_bounds_witness :
    cellAt gridEx 1 1 5 = 0 ∧ cellAt gridEx 1 10 0 = 0 ∧
      cellAt gridEx 1 (-2) 0 = 0 :=
  ⟨(C6_cellAt_out_of_bounds gridEx 1 1 5).1 (by decide),
   (C6_cellAt_out_of_bounds gridEx 1 10 0).2.1 (by decide),
   (C6_cellAt_out_of_bounds gridEx 1 (-2) 0).2.2 (by decide)⟩

/-- Claim C2: after the column sort of `Game.draw`, adjacent hits (in
fact all pairs in order) have non-increasing perpendicular corrected
distance — within one column the correction multiplies every hit's
distance by the same positive `cos(stripAngle)`, embedded here as an
arbitrary positive rational `c` — and hits at equal distance are
ordered with the higher vertical level first. -/
theorem C2_sortHits_sorted (l : List DDAHit) (c : ℚ) (hc : 0 < c) :
    (sortHits l).Pairwise
      (fun a b => b.dist * c ≤ a.dist * c ∧ (a.dist = b.dist → b.level ≤ a.level)) := by
  have h : (sortHits l).Pairwise hitBefore :=
    List.sorted_insertionSort hitBefore l
  refine h.imp ?_
  intro a b hab
  unfold hitBefore at hab
  by_cases hd : a.dist = b.dist
  · rw [if_pos hd] at hab
    exact ⟨le_of_eq (by rw [hd]), fun _ => hab⟩
  · rw [if_neg hd] at hab
    exact ⟨mul_le_mul_of_nonneg_right hab.le hc.le, fun h => absurd h hd⟩

/-- Witness for C2: the sort applied to a concrete three-hit column
(with a distance tie broken by level) with correction factor 1. -/
theorem C2_sortHits_sorted_witness :
    (sortHits [⟨10, false, 1, 0, 0⟩, ⟨50, false, 2, 0, 0⟩, ⟨50, true, 3, 0, 1⟩]).Pairwise
      (fun a b => b.dist * 1 ≤ a.dist * 1 ∧ (a.dist = b.dist → b.level ≤ a.level)) :=
  C2_sortHits_sorted
    [⟨10, false, 1, 0, 0⟩, ⟨50, false, 2, 0, 0⟩, ⟨50, true, 3, 0, 1⟩] 1 (by norm_num)

/-- Claim C1 (counterexample): the claim states the boundary-crossing
distances are strictly increasing for every ray, including rays
through a grid corner; but for the diagonal ray direction `(1, 1)`
from the cell-center position `(160, 160)` (tile size 64, strictly
inside any map wider than 3 cells), the corner at `(192, 192)` makes
`tMaxX = tMaxY = 32`: the DDA visits cell `(2, 3)` and then cell
`(3, 3)` at the same crossing distance 32, so the sequence is not
strictly increasing. -/
theorem C1_corner_equal_distance :
    crossDist (ddaStep (mkDDARay 64 1 1) (mkDDAState 64 160 160 1 1)) =
      crossDist (mkDDAState 64 160 160 1 1) ∧
    (ddaStep (mkDDARay 64 1 1) (mkDDAState 64 160 160 1 1)).cy ≠
      (mkDDAState 64 160 160 1 1).cy := by
  have hray : mkDDARay 64 1 1 = ⟨1, 1, ((64:ℚ):WithTop ℚ), ((64:ℚ):WithTop ℚ)⟩ := by
    unfold mkDDARay
    norm_num
  have hs : mkDDAState 64 160 160 1 1 = ⟨2, 2, ((32:ℚ):WithTop ℚ), ((32:ℚ):WithTop ℚ)⟩ := by
    unfold mkDDAState
    norm_num
  have hstep : ddaStep ⟨1, 1, ((64:ℚ):WithTop ℚ), ((64:ℚ):WithTop ℚ)⟩
      ⟨2, 2, ((32:ℚ):WithTop ℚ), ((32:ℚ):WithTop ℚ)⟩ =
      ⟨2, 3, ((32:ℚ):WithTop ℚ), ((96:ℚ):WithTop ℚ)⟩ := by
    unfold ddaStep
    rw [if_neg (lt_irrefl _)]
    simp only [← WithTop.coe_add]
    norm_num
  rw [hray, hs, hstep]
  constructor
  · unfold crossDist
    simp only
    rw [min_eq_left (by exact_mod_cast (by norm_num : (32:ℚ) ≤ 96)), min_self]
  · simp

/-- Claim C1 (amended): along the unified DDA, the boundary-crossing
distance sequence is monotone non-decreasing for every start state and
every ray (any position, any direction, any positive tile size), and
it strictly increases at every step at which the two boundary
distances differ — equality, the grid-corner case, is exactly where
two consecutive cells are visited at the same crossing distance. -/
theorem C1_crossDist_monotone (tileSize dirX dirY : ℚ) (hT : 0 < tileSize)
    (s : DDAState) :
    crossDist s ≤ crossDist (ddaStep (mkDDARay tileSize dirX dirY) s) ∧
    (s.tMaxX ≠ s.tMaxY →
      crossDist s < crossDist (ddaStep (mkDDARay tileSize dirX dirY) s)) := by
  have hdx := tDeltaX_pos tileSize dirX dirY hT
  have hdy := tDeltaY_pos tileSize dirX dirY hT
  set ray := mkDDARay tileSize dirX dirY with hray
  unfold ddaStep crossDist
  by_cases hlt : s.tMaxX < s.tMaxY
  · rw [if_pos hlt]
    simp only
    constructor
    · rw [min_eq_left hlt.le]
      exact le_min (le_add_of_nonneg_right hdx.le) hlt.le
    · intro _
      rw [min_eq_left hlt.le]
      exact lt_min (withTop_lt_add_right _ _ (hlt.trans_le le_top).ne hdx) hlt
  · rw [if_neg hlt]
    push_neg at hlt
    simp only
    constructor
    · rw [min_eq_right hlt]
      exact le_min hlt (le_add_of_nonneg_right hdy.le)
    · intro hne
      have hstrict : s.tMaxY < s.tMaxX := lt_of_le_of_ne hlt (fun h => hne h.symm)
      rw [min_eq_right hlt]
      exact lt_min hstrict (withTop_lt_add_right _ _ (hstrict.trans_le le_top).ne hdy)

/-- Witness for C1: a strict increase at a concrete non-corner state
(player at `(96, 100)`, direction `(1, 2)`, where `tMaxX = 32` and
`tMaxY = 14` differ). -/
theorem C1_crossDist_monotone_witness :
    crossDist (mkDDAState 64 96 100 1 2) <
      crossDist (ddaStep (mkDDARay 64 1 2) (mkDDAState 64 96 100 1 2)) :=
  (C1_crossDist_monotone 64 1 2 (by norm_num) (mkDDAState 64 96 100 1 2)).2 (by
    rw [show mkDDAState 64 96 100 1 2 =
        ⟨1, 1, ((32:ℚ):WithTop ℚ), ((14:ℚ):WithTop ℚ)⟩ from by
      unfold mkDDAState
      norm_num]
    simp)

/-- Claim C9: for an axis-aligned ray (a zero x direction component or
a zero y direction component, the other component `d` nonzero), the
DDA setup uses the infinite sentinel for the degenerate axis's
`tDelta` and `tMax` (instead of dividing by the zero component), and
the traversal still steps through the correct cell sequence along the
other axis: with `dirX = 0`, after `n` steps the x cell is unchanged
and the y cell has advanced by `n * stepY`; with `dirY = 0`, the y
cell is unchanged and the x cell has advanced by `n * stepX`. -/
theorem C9_axis_aligned_sentinel (tileSize px py d : ℚ)
    (hd : d ≠ 0) (n : ℕ) :
    ((mkDDARay tileSize 0 d).tDeltaX = ⊤ ∧
     (mkDDAState tileSize px py 0 d).tMaxX = ⊤ ∧
     ((ddaStep (mkDDARay tileSize 0 d))^[n] (mkDDAState tileSize px py 0 d)).cx =
       (mkDDAState tileSize px py 0 d).cx ∧
     ((ddaStep (mkDDARay tileSize 0 d))^[n] (mkDDAState tileSize px py 0 d)).cy =
       (mkDDAState tileSize px py 0 d).cy + n * (mkDDARay tileSize 0 d).stepY) ∧
    ((mkDDARay tileSize d 0).tDeltaY = ⊤ ∧
     (mkDDAState tileSize px py d 0).tMaxY = ⊤ ∧
     ((ddaStep (mkDDARay tileSize d 0))^[n] (mkDDAState tileSize px py d 0)).cy =
       (mkDDAState tileSize px py d 0).cy ∧
     ((ddaStep (mkDDARay tileSize d 0))^[n] (mkDDAState tileSize px py d 0)).cx =
       (mkDDAState tileSize px py d 0).cx + n * (mkDDARay tileSize d 0).stepX) := by
  constructor
  · set ray := mkDDARay tileSize 0 d with hray
    set s0 := mkDDAState tileSize px py 0 d with hs0
    have hdX : ray.tDeltaX = ⊤ := by
      rw [hray]
      unfold mkDDARay
      simp
    have hdYfin : ray.tDeltaY ≠ ⊤ := by
      rw [hray]
      unfold mkDDARay
      simp [hd]
    have hX0 : s0.tMaxX = ⊤ := by
      rw [hs0]
      unfold mkDDAState
      simp
    have hY0 : s0.tMaxY ≠ ⊤ := by
      rw [hs0]
      unfold mkDDAState
      simp only
      rcases lt_or_gt_of_ne hd with h | h
      · rw [if_neg (not_lt.mpr h.le), if_pos h]
        exact WithTop.coe_ne_top
      · rw [if_pos h]
        exact WithTop.coe_ne_top
    have key : ∀ m : ℕ, ((ddaStep ray)^[m] s0).tMaxX = ⊤ ∧
        ((ddaStep ray)^[m] s0).tMaxY ≠ ⊤ ∧
        ((ddaStep ray)^[m] s0).cx = s0.cx ∧
        ((ddaStep ray)^[m] s0).cy = s0.cy + m * ray.stepY := by
      intro m
      induction m with
      | zero =>
        refine ⟨hX0, hY0, rfl, ?_⟩
        simp
      | succ k ih =>
        obtain ⟨ihX, ihY, ihcx, ihcy⟩ := ih
        have hcond : ¬ (((ddaStep ray)^[k] s0).tMaxX < ((ddaStep ray)^[k] s0).tMaxY) := by
          rw [ihX]
          exact not_top_lt
        rw [Function.iterate_succ_apply', ddaStep_of_not_lt ray _ hcond]
        refine ⟨ihX, WithTop.add_ne_top.mpr ⟨ihY, hdYfin⟩, ihcx, ?_⟩
        rw [show ({ ((ddaStep ray)^[k] s0) with
              cy := ((ddaStep ray)^[k] s0).cy + ray.stepY,
              tMaxY := ((ddaStep ray)^[k] s0).tMaxY + ray.tDeltaY } : DDAState).cy =
            ((ddaStep ray)^[k] s0).cy + ray.stepY from rfl, ihcy]
        push_cast
        ring
    exact ⟨hdX, hX0, (key n).2.2.1, (key n).2.2.2⟩
  · set ray := mkDDARay tileSize d 0 with hray
    set s0 := mkDDAState tileSize px py d 0 with hs0
    have hdY : ray.tDeltaY = ⊤ := by
      rw [hray]
      unfold mkDDARay
      simp
    have hdXfin : ray.tDeltaX ≠ ⊤ := by
      rw [hray]
      unfold mkDDARay
      simp [hd]
    have hY0 : s0.tMaxY = ⊤ := by
      rw [hs0]
      unfold mkDDAState
      simp
    have hX0 : s0.tMaxX ≠ ⊤ := by
      rw [hs0]
      unfold mkDDAState
      simp only
      rcases lt_or_gt_of_ne hd with h | h
      · rw [if_neg (not_lt.mpr h.le), if_pos h]
        exact WithTop.coe_ne_top
      · rw [if_pos h]
        exact WithTop.coe_ne_top
    have key : ∀ m : ℕ, ((ddaStep ray)^[m] s0).tMaxY = ⊤ ∧
        ((ddaStep ray)^[m] s0).tMaxX ≠ ⊤ ∧
        ((ddaStep ray)^[m] s0).cy = s0.cy ∧
        ((ddaStep ray)^[m] s0).cx = s0.cx + m * ray.stepX := by
      intro m
      induction m with
      | zero =>
        refine ⟨hY0, hX0, rfl, ?_⟩
        simp
      | succ k ih =>
        obtain ⟨ihY, ihX, ihcy, ihcx⟩ := ih
        have hcond : ((ddaStep ray)^[k] s0).tMaxX < ((ddaStep ray)^[k] s0).tMaxY := by
          rw [ihY]
          exact lt_top_iff_ne_top.mpr ihX
        rw [Function.iterate_succ_apply', ddaStep_of_lt ray _ hcond]
        refine ⟨ihY, WithTop.add_ne_top.mpr ⟨ihX, hdXfin⟩, ihcy, ?_⟩
        rw [show ({ ((ddaStep ray)^[k] s0) with
              cx := ((ddaStep ray)^[k] s0).cx + ray.stepX,
              tMaxX := ((ddaStep ray)^[k] s0).tMaxX + ray.tDeltaX } : DDAState).cx =
            ((ddaStep ray)^[k] s0).cx + ray.stepX from rfl, ihcx]
        push_cast
        ring
    exact ⟨hdY, hY0, (key n).2.2.1, (key n).2.2.2⟩

/-- Witness for C9: from `(160, 160)` the straight-up ray (direction
`(0, 1)`) keeps `cx = 2` and advances `cy` by one per step, and the
straight-right ray (direction `(1, 0)`) keeps `cy = 2` and advances
`cx` by one per step, for three steps each. -/
theorem C9_axis_aligned_sentinel_witness :
    ((mkDDARay 64 0 1).tDeltaX = ⊤ ∧
     (mkDDAState 64 160 160 0 1).tMaxX = ⊤ ∧
     ((ddaStep (mkDDARay 64 0 1))^[3] (mkDDAState 64 160 160 0 1)).cx =
       (mkDDAState 64 160 160 0 1).cx ∧
     ((ddaStep (mkDDARay 64 0 1))^[3] (mkDDAState 64 160 160 0 1)).cy =
       (mkDDAState 64 160 160 0 1).cy + (3:ℕ) * (mkDDARay 64 0 1).stepY) ∧
    ((mkDDARay 64 1 0).tDeltaY = ⊤ ∧
     (mkDDAState 64 160 160 1 0).tMaxY = ⊤ ∧
     ((ddaStep (mkDDARay 64 1 0))^[3] (mkDDAState 64 160 160 1 0)).cy =
       (mkDDAState 64 160 160 1 0).cy ∧
     ((ddaStep (mkDDARay 64 1 0))^[3] (mkDDAState 64 160 160 1 0)).cx =
       (mkDDAState 64 160 160 1 0).cx + (3:ℕ) * (mkDDARay 64 1 0).stepX) :=
  C9_axis_aligned_sentinel 64 160 160 1 (by norm_num) 3

/-- Claim C3 (counterexample): the claim states no door screen row is
drawn where a closer wall segment already covers it; but a closer
segment lying strictly inside the door span (here rows 20..30 inside
the span 10..50) matches none of the three clip branches, so the door
span is returned unchanged and rows 20..30 are drawn over the closer
wall. -/
theorem C3_middle_overlap_unclipped :
    clipDoor 100 10 50 [⟨50, 20, 30⟩] = (10, 50) ∧ (50:ℚ) < 100 ∧
      (10:Int) ≤ 20 ∧ (30:Int) ≤ 50 ∧ (20:Int) < 30 := by
  refine ⟨?_, by norm_num, by norm_num, by norm_num, by norm_num⟩
  simp only [clipDoor]
  norm_num

/-- Claim C3 (amended): against a single closer overlapping wall
segment, the door-pass clipping is exact in the three handled
configurations: a segment covering the whole span empties it, a
segment covering only the top shrinks the span to exactly
`[seg.yEnd, yEnd)`, and a segment covering only the bottom shrinks it
to exactly `[yStart, seg.yStart)`; only a segment strictly interior to
the span is left unclipped (see the counterexample). -/
theorem C3_clipDoor_cases (d : ℚ) (yStart yEnd : Int) (seg : WallSeg)
    (hclose : seg.dist < d) (hov1 : seg.yStart < yEnd) (hov2 : yStart < seg.yEnd) :
    (seg.yStart ≤ yStart ∧ yEnd ≤ seg.yEnd →
      clipDoor d yStart yEnd [seg] = (yEnd, yEnd)) ∧
    (seg.yStart ≤ yStart ∧ seg.yEnd < yEnd →
      clipDoor d yStart yEnd [seg] = (seg.yEnd, yEnd)) ∧
    (yStart < seg.yStart ∧ yEnd ≤ seg.yEnd →
      clipDoor d yStart yEnd [seg] = (yStart, seg.yStart)) := by
  refine ⟨?_, ?_, ?_⟩
  · rintro ⟨ha, hb⟩
    simp only [clipDoor]
    rw [if_pos hclose, if_pos ⟨hov1, hov2⟩, if_pos ⟨ha, hb⟩]
  · rintro ⟨ha, hb⟩
    simp only [clipDoor]
    rw [if_pos hclose, if_pos ⟨hov1, hov2⟩, if_neg (by omega), if_pos ha,
      max_eq_right hov2.le]
  · rintro ⟨ha, hb⟩
    simp only [clipDoor]
    rw [if_pos hclose, if_pos ⟨hov1, hov2⟩, if_neg (by omega), if_neg (by omega),
      if_pos hb, min_eq_right hov1.le]

/-- Witness for C3: a closer wall covering only the top of the door
span `[10, 50)` (segment rows 5..20) shrinks the drawable range to
exactly `[20, 50)`. -/
theorem C3_clipDoor_cases_witness :
    clipDoor 100 10 50 [⟨50, 5, 20⟩] = (20, 50) :=
  (C3_clipDoor_cases 100 10 50 ⟨50, 5, 20⟩ (by norm_num) (by norm_num)
    (by norm_num)).2.1 (by norm_num)

/-- Claim C7 (counterexample): the claim states the projected height
`stripScreenHeight` strictly decreases as correct distance increases;
but `stripScreenHeight` rounds (`floor(x + 0.5)`), and at view
distance 1000, tile size 64, the distinct distances 10000 < 10001 both
round to screen height 6 — no strict decrease (nor does the rounded
value equal `viewDist / correctDist * tileSize = 6.4` exactly). -/
theorem C7_rounding_equal_heights :
    (0:ℚ) < 10000 ∧ (10000:ℚ) < 10001 ∧
    stripScreenHeight 1000 10000 64 = 6 ∧ stripScreenHeight 1000 10001 64 = 6 := by
  refine ⟨by norm_num, by norm_num, ?_, ?_⟩ <;>
    · unfold stripScreenHeight
      norm_num

/-- Claim C7 (amended): the unrounded wall span height
`wallBottom - wallTop = tileSize * viewDist / correctDist` strictly
decreases as the correct distance increases, and the rounded
`stripScreenHeight` is monotone non-increasing (strictness can be lost
to rounding, see the counterexample). -/
theorem C7_projection_monotone (viewDist tileSize d1 d2 horizon cameraZ : ℚ)
    (level : Int)
    (hv : 0 < viewDist) (ht : 0 < tileSize) (h1 : 0 < d1) (h12 : d1 < d2) :
    wallBottomY horizon cameraZ tileSize viewDist d2 level -
        wallTopY horizon cameraZ tileSize viewDist d2 level <
      wallBottomY horizon cameraZ tileSize viewDist d1 level -
        wallTopY horizon cameraZ tileSize viewDist d1 level ∧
    stripScreenHeight viewDist d2 tileSize ≤ stripScreenHeight viewDist d1 tileSize := by
  have hdiv : viewDist / d2 < viewDist / d1 := div_lt_div_of_pos_left hv h1 h12
  constructor
  · have e : ∀ d : ℚ, wallBottomY horizon cameraZ tileSize viewDist d level -
        wallTopY horizon cameraZ tileSize viewDist d level =
          tileSize * (viewDist / d) := by
      intro d
      unfold wallBottomY wallTopY
      ring
    rw [e d1, e d2]
    exact mul_lt_mul_of_pos_left hdiv ht
  · unfold stripScreenHeight
    apply Int.floor_le_floor
    have h := mul_le_mul_of_nonneg_right hdiv.le ht.le
    linarith

/-- Witness for C7 at view distance 1000, tile size 64, distances
100 < 200, horizon 300, camera height 32, level 0. -/
theorem C7_projection_monotone_witness :
    wallBottomY 300 32 64 1000 200 0 - wallTopY 300 32 64 1000 200 0 <
      wallBottomY 300 32 64 1000 100 0 - wallTopY 300 32 64 1000 100 0 ∧
    stripScreenHeight 1000 200 64 ≤ stripScreenHeight 1000 100 64 :=
  C7_projection_monotone 1000 64 100 200 300 32 0 (by norm_num) (by norm_num)
    (by norm_num) (by norm_num)

/-- Claim C4 (counterexample): the claim states that a door cell
toggled open still produces a ray-traversal hit flagged as a door in
the same frame; but the unified DDA front-face check treats an open
door as non-solid, so for the vertical-door code 1200 with its door
state open, no front-face hit is emitted even when entered from empty
space. -/
theorem C4_open_door_no_hit :
    isVerticalDoor 1200 = true ∧ frontFaceHit 1200 true 0 = false := by
  decide

/-- Claim C4 (amended): toggling a door cell open makes the movement
check `isWall` passable for that cell, and the occupancy code from
`cellAt` is independent of door state; but the unified DDA then emits
no front-face hit for the opened door (it is skipped as empty), while
the same cell with the door closed does emit a hit. -/
theorem C4_open_door_passable_no_hit (r : RaycasterGrid) (doors : Int → Bool)
    (tileSize : ℚ) (x y : ℚ) (cx cy c prev : Int)
    (hfx : ⌊x / tileSize⌋ = cx) (hfy : ⌊y / tileSize⌋ = cy)
    (hcx : 0 ≤ cx ∧ cx < r.gridWidth) (hcy : 0 ≤ cy ∧ cy < r.gridHeight)
    (hc : cellAt r cx cy 0 = c) (hd : isDoor c = true)
    (hopen : doors (cx + cy * r.gridWidth) = true) :
    isWall r doors tileSize x y = false ∧
    frontFaceHit c true prev = false ∧
    frontFaceHit c false 0 = true := by
  refine ⟨?_, ?_, ?_⟩
  · unfold isWall
    simp only [hfx, hfy]
    rw [if_neg (by omega)]
    simp [hc, hd, hopen]
  · simp [frontFaceHit, hd]
  · have hpos : (0:Int) < c := by
      unfold isDoor isVerticalDoor isHorizontalDoor at hd
      simp only [Bool.or_eq_true, Bool.and_eq_true, decide_eq_true_eq] at hd
      omega
    simp [frontFaceHit, hd, hpos]

/-- Witness for C4 on the concrete door world: the open door 1200 at
cell (3, 2) is passable at world point (224, 160) and emits no
front-face hit, while closed it does. -/
theorem C4_open_door_passable_no_hit_witness :
    isWall gridDoorEx (fun k => k == 13) 64 224 160 = false ∧
    frontFaceHit 1200 true 5 = false ∧
    frontFaceHit 1200 false 0 = true :=
  C4_open_door_passable_no_hit gridDoorEx (fun k => k == 13) 64 224 160 3 2 1200 5
    (by norm_num) (by norm_num) (by decide) (by decide) (by decide) (by decide)
    (by decide)

/-- Claim C10: the per-frame movement step of `Game.update` preserves
the player-not-in-wall invariant for every grid, door state and
displacement: if `isWall` is false at the current position, it is
false after the axis-independent, collision-cancelled update. -/
theorem C10_move_preserves_not_in_wall (r : RaycasterGrid) (doors : Int → Bool)
    (tileSize : ℚ) (x y dx dy : ℚ)
    (h : isWall r doors tileSize x y = false) :
    isWall r doors tileSize (movePlayer r doors tileSize x y dx dy).1
      (movePlayer r doors tileSize x y dx dy).2 = false := by
  simp only [movePlayer]
  split_ifs with h1 h2 h3 <;> assumption

/-- Witness for C10: a concrete step from the empty cell (1, 1) of the
door world with displacement (4, 0). -/
theorem C10_move_preserves_not_in_wall_witness :
    isWall gridDoorEx (fun _ => false) 64
      (movePlayer gridDoorEx (fun _ => false) 64 96 96 4 0).1
      (movePlayer gridDoorEx (fun _ => false) 64 96 96 4 0).2 = false :=
  C10_move_preserves_not_in_wall gridDoorEx (fun _ => false) 64 96 96 4 0 (by
    unfold isWall
    rw [show ⌊(96:ℚ)/64⌋ = 1 from by norm_num]
    rw [if_neg (by
      rw [show gridDoorEx.gridWidth = 5 from rfl,
        show gridDoorEx.gridHeight = 5 from rfl]
      omega)]
    rw [show cellAt gridDoorEx 1 1 0 = 0 from by decide]
    simp [isDoor, isVerticalDoor, isHorizontalDoor])
